import Mathlib

/-!
Verification development for the document-processing pipeline
(`app/tasks/processing.py` and the services it drives).  Python code is
shallowly embedded: pure functions become Lean functions, the orchestrator
becomes a function from a run configuration (the outcomes of the external
calls it makes) to the list of persistence events it emits, and Python
dictionaries become insertion-ordered association lists with last-write-wins
update semantics.
-/

/-! ## Python string primitives used by the embedded code -/

/-- Python `needle in hay` substring test. -/
def strContains (hay needle : String) : Bool :=
  hay.toList.tails.any (fun t => needle.toList.isPrefixOf t)

/-- Python `str.strip()`: drop leading and trailing whitespace. -/
def pyStrip (s : String) : String :=
  String.mk (((s.toList.dropWhile Char.isWhitespace).reverse.dropWhile
    Char.isWhitespace).reverse)

/-- Python `str.lower()` (ASCII case folding, which is all these inputs use). -/
def pyLower (s : String) : String :=
  String.mk (s.toList.map Char.toLower)

/-- Python `str.replace(a, b)` for one-character patterns. -/
def replaceChar (a b : Char) (s : String) : String :=
  String.mk (s.toList.map fun c => if c = a then b else c)

/-- Split a character list at every occurrence of the separator character. -/
def splitCharList (sep : Char) : List Char → List (List Char)
  | [] => [[]]
  | c :: rest =>
    let r := splitCharList sep rest
    if c = sep then [] :: r
    else
      match r with
      | [] => [[c]]
      | h :: t => (c :: h) :: t

/-- Python `str.split(sep)` for a one-character separator. -/
def pySplit (sep : Char) (s : String) : List String :=
  (splitCharList sep s.toList).map String.mk

/-- Python truthiness for an optional string: `None` and `""` are falsy. -/
def pyTruthy : Option String → Bool
  | none => false
  | some s => s ≠ ""

/-- Python `a or b` over optional strings: first value if truthy, else the second. -/
def pyOr (a b : Option String) : Option String :=
  if pyTruthy a then a else b

/-- Python dict assignment `d[k] = v` on an insertion-ordered association
list: update the value in place if the key is present, else append. -/
def dictSet {β : Type} (d : List (String × β)) (k : String) (v : β) :
    List (String × β) :=
  match d with
  | [] => [(k, v)]
  | (k₀, v₀) :: rest => if k₀ = k then (k, v) :: rest else (k₀, v₀) :: dictSet rest k v

/-- Keys of an association list, in insertion order. -/
def dictKeys {β : Type} (d : List (String × β)) : List String :=
  d.map Prod.fst

/-- First-match lookup, the Python `d[k]` / `d.get(k)` read. -/
def dictGet {β : Type} (d : List (String × β)) (k : String) : Option β :=
  match d with
  | [] => none
  | (k₀, v₀) :: rest => if k₀ = k then some v₀ else dictGet rest k

/-- A word character for the `\b` boundary of Python's `re` (`[A-Za-z0-9_]`
on the ASCII inputs this classifier sees). -/
def isWordChar (c : Char) : Bool :=
  c.isAlphanum || c = '_'

/-- Python `re.search(r"\b(alt1|alt2|...)\b", s)` viewed as a Boolean: some
alternative occurs at a position whose neighbours are not word characters. -/
def searchWordBounded (alts : List String) (s : String) : Bool :=
  let cs := s.toList
  (List.range (cs.length + 1)).any fun i =>
    alts.any fun a =>
      let al := a.toList
      al.isPrefixOf (cs.drop i) &&
      (decide (i = 0) || !isWordChar (cs.getD (i - 1) ' ')) &&
      (decide (i + al.length = cs.length) || !isWordChar (cs.getD (i + al.length) ' '))

/-! ## `app/services/classifier.py` — `DocumentClassifier.classify` -/

/-- Result record of `DocumentClassifier.classify` (`ClassificationResult`
dataclass).  Confidences are exact rationals standing for the Python float
literals.  `metadata` values are optional because `_prime_source` may put
`None` into the metadata map. -/
structure ClassificationResult where
  label : String := "unknown"
  confidence : ℚ := 0
  rationale : Option String := none
  suggestedSchemaName : Option String := none
  suggestedFields : List String := []
  metadata : List (String × Option String) := []
  deriving DecidableEq, Repr

/-- The ordered keyword rule list of `DocumentClassifier.classify`, exactly
as written in the source (note: the generic `"contract"` rule comes first). -/
def classifierRules : List (String × ℚ × List String × String) :=
  [ ("contract", mkRat 8 10, ["Effective Date", "Parties", "Term", "Signature"], "Contract"),
    ("master services agreement", mkRat 9 10, ["Service Scope", "Term", "Termination", "Fees"], "MSA"),
    ("statement of work", mkRat 85 100, ["Scope", "Deliverables", "Milestones", "Compensation"], "SOW"),
    ("invoice", mkRat 9 10, ["Invoice Number", "Invoice Date", "Total Due", "Payment Terms"], "Invoice"),
    ("purchase order", mkRat 75 100, ["PO Number", "Vendor", "Ship To", "Total"], "Purchase Order") ]

/-- `DocumentClassifier._prime_source`: first snippet source whose truthy
text contains the keyword (after lower-casing). -/
def primeSource (snippets : List (String × Option String)) (keyword : String) :
    Option String :=
  match snippets with
  | [] => none
  | (source, text) :: rest =>
    match text with
    | some t => if t ≠ "" && strContains (pyLower t) keyword then some source
                else primeSource rest keyword
    | none => primeSource rest keyword

/-- First matching rule of the ordered rule list (`for keyword, ... in rules`). -/
def firstRuleMatch (normalized : String)
    (rules : List (String × ℚ × List String × String)) :
    Option (String × ℚ × List String × String) :=
  match rules with
  | [] => none
  | r :: rest => if strContains normalized r.1 then some r else firstRuleMatch normalized rest

/-- `DocumentClassifier.classify`: keyword rules in order, then the two
regex-based structural fallbacks, then the `"unknown"` default. -/
def classify (text : Option String) (snippets : List (String × Option String)) :
    ClassificationResult :=
  if pyTruthy text = false then
    { rationale := some "No OCR text available." }
  else
    let t := text.getD ""
    let normalized := (pyLower t)
    match firstRuleMatch normalized classifierRules with
    | some (keyword, confidence, fields, canonical) =>
      { label := canonical
        confidence := confidence
        rationale := some ("Matched keyword '" ++ keyword ++ "' in OCR text.")
        suggestedSchemaName := some canonical
        suggestedFields := fields
        metadata := [("matched_keyword", some keyword),
                     ("source", primeSource snippets keyword)] }
    | none =>
      if searchWordBounded ["total due", "balance due", "invoice number"] normalized then
        { label := "Invoice"
          confidence := mkRat 6 10
          rationale := some "Detected billing-oriented phrases."
          suggestedSchemaName := some "Invoice"
          suggestedFields := ["Invoice Number", "Invoice Date", "Total Due", "Billing Address"]
          metadata := [("source", primeSource snippets "invoice")] }
      else if searchWordBounded ["scope of work", "deliverable"] normalized then
        { label := "Statement of Work"
          confidence := mkRat 55 100
          rationale := some "Found SOW terminology."
          suggestedSchemaName := some "Statement of Work"
          suggestedFields := ["Scope", "Deliverables", "Timeline", "Payment"]
          metadata := [("source", primeSource snippets "scope of work")] }
      else
        { rationale := some "No matching heuristic rule." }

/-- A document text containing both the substring "master services agreement"
and the substring "contract" (case-insensitively). -/
def msaContractText : String :=
  "This Master Services Agreement is a binding contract between the parties."

/-- C1: the spec requires that text containing both "master services
agreement" and "contract" classifies as "MSA" because the more specific rule
must precede the generic one.  The code lists the generic "contract" rule
first, so `classify` returns the generic "Contract" label (confidence 0.8)
on exactly such a text and the higher-confidence "MSA" rule is never
reached. -/
theorem classify_msa_and_contract_returns_generic_contract :
    strContains (pyLower msaContractText) "master services agreement" = true ∧
    strContains (pyLower msaContractText) "contract" = true ∧
    classify (some msaContractText) [] =
      { label := "Contract"
        confidence := mkRat 8 10
        rationale := some "Matched keyword 'contract' in OCR text."
        suggestedSchemaName := some "Contract"
        suggestedFields := ["Effective Date", "Parties", "Term", "Signature"]
        metadata := [("matched_keyword", some "contract"), ("source", none)] } ∧
    (classify (some msaContractText) []).label ≠ "MSA" := by
  refine ⟨by decide, by decide, by decide, by decide⟩

/-! ## `app/services/schema_generator.py` — `SchemaGenerator` -/

/-- One field of a schema proposal (`fields` entries).  The AI-path fields
carry a `query` instruction; the heuristic fallback emits none. -/
structure SchemaField where
  key : String
  query : Option String := none
  description : String := ""
  valueType : String := "string"
  required : Bool := false
  deriving DecidableEq, Repr

/-- A parsed schema proposal: the dictionary shape both generators return
(`schema_name`, `category`, `description`, `fields`, `extracted_values`). -/
structure SchemaData where
  schemaName : String
  category : String
  description : String
  fields : List SchemaField
  extractedValues : List (String × String)
  deriving DecidableEq, Repr

/-- Key normalisation of `_create_fallback_schema`:
`parts[0].strip().lower().replace(' ', '_').replace('-', '_')`. -/
def normalizeFallbackKey (s : String) : String :=
  replaceChar '-' '_' (replaceChar ' ' '_' (pyLower (pyStrip s)))

/-- One iteration of the `for line in lines[:50]` loop of
`_create_fallback_schema`: a stripped line containing a colon contributes
its `key: value` split when the normalised key and the value are non-empty
and the key is shorter than 50 characters. -/
def fallbackLineStep (acc : List (String × String)) (line : String) :
    List (String × String) :=
  let line := pyStrip line
  if strContains line ":" then
    match pySplit ':' line with
    | [] => acc
    | k₀ :: restParts =>
      let key := normalizeFallbackKey k₀
      let value := pyStrip (String.intercalate ":" restParts)
      if key ≠ "" ∧ value ≠ "" ∧ key.length < 50 then dictSet acc key value else acc
  else acc

/-- `SchemaGenerator._create_fallback_schema`: scan the first 50 lines for
`key: value` pairs and emit a minimal schema mirroring the discovered keys,
each field not required and without an extraction query. -/
def createFallbackSchema (ocrText : String) : SchemaData :=
  let extractedValues := ((pySplit '\n' ocrText).take 50).foldl fallbackLineStep []
  { schemaName := "Generic Document"
    category := "unknown"
    description := "Auto-generated fallback schema"
    fields := extractedValues.map fun p =>
      { key := p.1
        query := none
        valueType := "string"
        description := "Extracted field: " ++ p.1
        required := false }
    extractedValues := extractedValues }

/-- `SchemaGenerator.generate_schema_from_text` with the generative call's
outcome made explicit: the parsed LLM response on success, and the heuristic
fallback schema when the call (or its JSON parse) raises. -/
def generate_schema_from_text (callResult : Except String SchemaData)
    (ocrText : String) : SchemaData :=
  match callResult with
  | .ok result => result
  | .error _ => createFallbackSchema ocrText

/-- C7: on OCR text "Invoice Number: INV-001\nTotal: 42.00" with a failing
generative capability, the proposal's extracted values hold
"invoice_number" ↦ "INV-001" and "total" ↦ "42.00" (keys snake_case
normalised) and every emitted field is marked not required. -/
theorem generate_schema_fallback_invoice_total (msg : String) :
    dictGet (generate_schema_from_text (Except.error msg)
        "Invoice Number: INV-001\nTotal: 42.00").extractedValues "invoice_number" =
      some "INV-001" ∧
    dictGet (generate_schema_from_text (Except.error msg)
        "Invoice Number: INV-001\nTotal: 42.00").extractedValues "total" =
      some "42.00" ∧
    (generate_schema_from_text (Except.error msg)
        "Invoice Number: INV-001\nTotal: 42.00").extractedValues =
      [("invoice_number", "INV-001"), ("total", "42.00")] ∧
    ∀ f ∈ (generate_schema_from_text (Except.error msg)
        "Invoice Number: INV-001\nTotal: 42.00").fields, f.required = false := by
  have h : generate_schema_from_text (.error msg)
      "Invoice Number: INV-001\nTotal: 42.00" =
      createFallbackSchema "Invoice Number: INV-001\nTotal: 42.00" := rfl
  simp only [h]
  refine ⟨by decide, by decide, by decide, by decide⟩

/-! ## `app/services/table_extractor.py` — `TableExtractor.extract_line_items` -/

/-- Values stored in a line-item map: cell text, the 1-based `_line_number`,
or the originating table's `_table_metadata` map. -/
inductive ItemValue where
  | str (s : String)
  | num (n : Nat)
  | meta (m : List (String × String))
  deriving DecidableEq, Repr

/-- A table as produced by `_parse_table_element`: header row, data rows and
a metadata map (`page`/`element_index`/`source` or `table_index`/`source`). -/
structure Table where
  headers : List String
  rows : List (List String)
  metadata : List (String × String) := []
  deriving DecidableEq, Repr

/-- The inner `for col_idx, header in enumerate(headers)` loop of
`extract_line_items`: set `item[header] = row[col_idx]` whenever the column
index is inside the row. -/
def buildItem (row : List String) :
    Nat → List String → List (String × ItemValue) → List (String × ItemValue)
  | _, [], item => item
  | i, h :: hs, item =>
    buildItem row (i + 1) hs
      (if i < row.length then dictSet item h (.str (row.getD i "")) else item)

/-- One data row's contribution: `None` when the built item is empty
(`if item:` fails), else the item tagged with its 1-based line number and the
table's metadata. -/
def lineItemRow (t : Table) (rowIdx : Nat) (row : List String) :
    Option (List (String × ItemValue)) :=
  let item := buildItem row 0 t.headers []
  if item = [] then none
  else some (dictSet (dictSet item "_line_number" (.num (rowIdx + 1)))
    "_table_metadata" (.meta t.metadata))

/-- `TableExtractor.extract_line_items`: tables lacking headers or rows are
skipped; every other table contributes one item per non-degenerate data row. -/
def extract_line_items (tables : List Table) : List (List (String × ItemValue)) :=
  tables.foldl (fun acc t =>
    if t.headers = [] ∨ t.rows = [] then acc
    else acc ++ t.rows.enum.filterMap (fun p => lineItemRow t p.1 p.2)) []

theorem dictSet_eq_append {β : Type} (d : List (String × β)) (k : String) (v : β)
    (h : k ∉ d.map Prod.fst) : dictSet d k v = d ++ [(k, v)] := by
  induction d with
  | nil => rfl
  | cons p rest ih =>
    simp only [List.map_cons, List.mem_cons] at h
    push_neg at h
    simp [dictSet, Ne.symm h.1, ih h.2]

theorem buildItem_eq_zip (row : List String) :
    ∀ (hs : List String) (i : Nat) (acc : List (String × ItemValue)),
    hs.Nodup → (∀ h ∈ hs, h ∉ acc.map Prod.fst) →
    buildItem row i hs acc =
      acc ++ (hs.zip (row.drop i)).map (fun q => (q.1, ItemValue.str q.2)) := by
  intro hs
  induction hs with
  | nil => intro i acc _ _; simp [buildItem]
  | cons h rest ih =>
    intro i acc hnd hmem
    by_cases hi : i < row.length
    · have hgetD : row.getD i "" = row[i] := List.getD_eq_getElem row "" hi
      have hdrop : row.drop i = row.getD i "" :: row.drop (i + 1) := by
        rw [hgetD]; exact List.drop_eq_getElem_cons hi
      have hset : dictSet acc h (.str (row.getD i "")) = acc ++ [(h, .str (row.getD i ""))] :=
        dictSet_eq_append _ _ _ (hmem h (by simp))
      have hrest : ∀ h₀ ∈ rest, h₀ ∉ (acc ++ [(h, ItemValue.str (row.getD i ""))]).map Prod.fst := by
        intro h₀ hh₀ hmem'
        simp only [List.map_append, List.mem_append, List.map_cons, List.map_nil,
          List.mem_singleton] at hmem'
        rcases hmem' with hmem' | hmem'
        · exact hmem h₀ (List.mem_cons_of_mem _ hh₀) hmem'
        · exact (List.nodup_cons.mp hnd).1 (hmem' ▸ hh₀)
      have hih := ih (i + 1) (acc ++ [(h, .str (row.getD i ""))]) (List.nodup_cons.mp hnd).2 hrest
      simp only [buildItem, if_pos hi, hset, hih, hdrop, List.zip_cons_cons,
        List.map_cons, List.append_assoc, List.singleton_append]
    · have hdrop : row.drop i = [] := List.drop_eq_nil_of_le (Nat.le_of_not_lt hi)
      have hdrop' : row.drop (i + 1) = [] :=
        List.drop_eq_nil_of_le (Nat.le_succ_of_le (Nat.le_of_not_lt hi))
      have hih := ih (i + 1) acc (List.nodup_cons.mp hnd).2
        (fun h₀ hh₀ => hmem h₀ (by simp [hh₀]))
      simp only [buildItem, if_neg hi, hih, hdrop, hdrop', List.zip_nil_right,
        List.map_nil]

theorem lineItemRow_eq_of_wf (t : Table) (hh : t.headers ≠ [])
    (hnd : t.headers.Nodup) (hln : "_line_number" ∉ t.headers)
    (htm : "_table_metadata" ∉ t.headers) (rowIdx : Nat) (row : List String)
    (hrow : row ≠ []) :
    lineItemRow t rowIdx row =
      some (((t.headers.zip row).map fun q => (q.1, ItemValue.str q.2)) ++
        [("_line_number", ItemValue.num (rowIdx + 1)),
         ("_table_metadata", ItemValue.meta t.metadata)]) := by
  have hitem : buildItem row 0 t.headers [] =
      (t.headers.zip row).map (fun q => (q.1, ItemValue.str q.2)) := by
    simpa using buildItem_eq_zip row t.headers 0 [] hnd (by simp)
  have hkeys : ((t.headers.zip row).map fun q => (q.1, ItemValue.str q.2)).map Prod.fst
      = (t.headers.zip row).map Prod.fst := by
    simp
  have hne : (t.headers.zip row).map (fun q => (q.1, ItemValue.str q.2)) ≠ [] := by
    obtain ⟨a, as, ha⟩ := List.exists_cons_of_ne_nil hh
    obtain ⟨b, bs, hb⟩ := List.exists_cons_of_ne_nil hrow
    rw [ha, hb]
    simp
  have hmemln : ("_line_number" : String) ∉
      ((t.headers.zip row).map fun q => (q.1, ItemValue.str q.2)).map Prod.fst := by
    rw [hkeys]
    intro hmem
    obtain ⟨⟨a, b⟩, hab, hfst⟩ := List.mem_map.mp hmem
    exact hln (hfst ▸ (List.of_mem_zip hab).1)
  have hmemtm : ("_table_metadata" : String) ∉
      (((t.headers.zip row).map fun q => (q.1, ItemValue.str q.2)) ++
        [("_line_number", ItemValue.num (rowIdx + 1))]).map Prod.fst := by
    simp only [List.map_append, List.mem_append, hkeys]
    rintro (hmem | hmem)
    · obtain ⟨⟨a, b⟩, hab, hfst⟩ := List.mem_map.mp hmem
      exact htm (hfst ▸ (List.of_mem_zip hab).1)
    · simp at hmem
  unfold lineItemRow
  rw [hitem, if_neg hne,
    dictSet_eq_append _ "_line_number" (.num (rowIdx + 1)) hmemln,
    dictSet_eq_append _ "_table_metadata" (.meta t.metadata) hmemtm]
  simp

theorem filterMap_eq_map_of_forall {α β : Type} (f : α → Option β) (g : α → β) :
    ∀ l : List α, (∀ x ∈ l, f x = some (g x)) → l.filterMap f = l.map g := by
  intro l h
  induction l with
  | nil => simp
  | cons x xs ih =>
    rw [List.filterMap_cons, h x (List.mem_cons_self x xs), List.map_cons,
      ih (fun y hy => h y (List.mem_cons_of_mem x hy))]

/-- C8: for a table with non-empty, duplicate-free headers (not clashing
with the reserved item keys) and non-empty rows, `extract_line_items` zips
the headers with each data row and tags each item with its 1-based line
number and the table's metadata; tables lacking headers or rows are skipped
without error. -/
theorem extract_line_items_spec :
    (∀ t : Table, t.headers ≠ [] → t.rows ≠ [] → t.headers.Nodup →
      "_line_number" ∉ t.headers → "_table_metadata" ∉ t.headers →
      (∀ r ∈ t.rows, r ≠ []) →
      extract_line_items [t] = t.rows.enum.map (fun p =>
        ((t.headers.zip p.2).map fun q => (q.1, ItemValue.str q.2)) ++
        [("_line_number", ItemValue.num (p.1 + 1)),
         ("_table_metadata", ItemValue.meta t.metadata)])) ∧
    (∀ t : Table, t.headers = [] ∨ t.rows = [] → extract_line_items [t] = []) := by
  constructor
  · intro t hh hr hnd hln htm hrows
    have hcond : ¬(t.headers = [] ∨ t.rows = []) := by
      rintro (h | h) <;> [exact hh h; exact hr h]
    simp only [extract_line_items, List.foldl_cons, List.foldl_nil, if_neg hcond,
      List.nil_append]
    exact filterMap_eq_map_of_forall _ _ _ (fun p hp =>
      lineItemRow_eq_of_wf t hh hnd hln htm p.1 p.2
        (hrows p.2 (List.snd_mem_of_mem_enum hp)))
  · intro t h
    simp [extract_line_items, h]

/-- The concrete table of the claim: headers ["A","B"], rows
[["1","2"],["3","4"]]. -/
def exampleTable : Table :=
  { headers := ["A", "B"], rows := [["1", "2"], ["3", "4"]],
    metadata := [("page", "1"), ("source", "docling")] }

/-- Witness for C8 at the claim's concrete table, plus a degenerate
headerless table being skipped. -/
theorem extract_line_items_spec_witness :
    extract_line_items [exampleTable] =
      [[("A", ItemValue.str "1"), ("B", ItemValue.str "2"),
        ("_line_number", ItemValue.num 1),
        ("_table_metadata", ItemValue.meta [("page", "1"), ("source", "docling")])],
       [("A", ItemValue.str "3"), ("B", ItemValue.str "4"),
        ("_line_number", ItemValue.num 2),
        ("_table_metadata", ItemValue.meta [("page", "1"), ("source", "docling")])]] ∧
    extract_line_items [{ headers := [], rows := [["1"]] : Table }] = [] := by
  constructor
  · refine Eq.trans (extract_line_items_spec.1 exampleTable (by decide) (by decide)
      (by decide) (by decide) (by decide) (by decide)) ?_
    decide
  · exact extract_line_items_spec.2 _ (Or.inl rfl)

/-! ## `app/services/parasail.py` — `ParasailOCRClient.extract_multi_page` -/

/-- Outcome of one per-page chat-completion call: the call raises (`fail`)
or returns a response whose `choices` list carries an optional
`message.content` per choice. -/
inductive PageCall where
  | fail (msg : String)
  | ok (choices : List (Option String))
  deriving DecidableEq, Repr

/-- Entry of `all_pages_results`: the per-page response dict tagged with
`_page_number`, or the error record `{_page_number, error, ...}`. -/
inductive PageRecord where
  | success (pageNumber : Nat) (choices : List (Option String))
  | failure (pageNumber : Nat) (msg : String)
  deriving DecidableEq, Repr

/-- The combined dict returned by `extract_multi_page`. -/
structure MultiPageResult where
  pageCount : Nat
  pages : List PageRecord
  combinedText : String
  deriving DecidableEq, Repr

/-- The `=== Page N ===` heading placed before each page's text. -/
def sectionHeader (n : Nat) : String :=
  "\n\n=== Page " ++ toString n ++ " ===\n\n"

/-- The `for page_num, page_bytes in enumerate(page_images, start=1)` loop:
a failing call contributes an `[ERROR: ...]` section and an error record and
the loop continues; a successful call contributes a text section only when
its response has a non-empty `choices` list. -/
def multiPageLoop : Nat → List PageCall → List String × List PageRecord
  | _, [] => ([], [])
  | n, o :: rest =>
    let r := multiPageLoop (n + 1) rest
    match o with
    | .fail msg =>
      ((sectionHeader n ++ ("[ERROR: " ++ msg ++ "]")) :: r.1, .failure n msg :: r.2)
    | .ok [] => (r.1, .success n [] :: r.2)
    | .ok (c :: cs) =>
      ((sectionHeader n ++ c.getD "") :: r.1, .success n (c :: cs) :: r.2)

/-- `ParasailOCRClient.extract_multi_page`: run every page in page order,
join the collected sections with a newline into `combined_text`. -/
def extract_multi_page (outcomes : List PageCall) : MultiPageResult :=
  let r := multiPageLoop 1 outcomes
  { pageCount := outcomes.length
    pages := r.2
    combinedText := String.intercalate "\n" r.1 }

/-- A page call that contributes a section: a failure, or a success whose
response carries at least one choice (the standard provider response shape). -/
def hasSection : PageCall → Bool
  | .fail _ => true
  | .ok cs => !cs.isEmpty

/-- Specification-side rendering of page `n`'s section: the heading followed
by the error marker on failure, and by the first choice's content otherwise. -/
def pageSection (n : Nat) (o : PageCall) : String :=
  sectionHeader n ++
    match o with
    | .fail msg => "[ERROR: " ++ msg ++ "]"
    | .ok cs => (cs.headD none).getD ""

theorem multiPageLoop_sections (outcomes : List PageCall) :
    ∀ n : Nat, (∀ o ∈ outcomes, hasSection o = true) →
    (multiPageLoop n outcomes).1 =
      List.zipWith pageSection (List.range' n outcomes.length) outcomes ∧
    (multiPageLoop n outcomes).2.length = outcomes.length := by
  induction outcomes with
  | nil => intro n _; simp [multiPageLoop]
  | cons o rest ih =>
    intro n hresp
    have hrest := ih (n + 1) (fun o ho => hresp o (List.mem_cons_of_mem _ ho))
    cases o with
    | fail msg =>
      simp only [multiPageLoop, List.length_cons, List.range'_succ,
        List.zipWith_cons_cons, pageSection]
      exact ⟨by rw [hrest.1], by rw [hrest.2]⟩
    | ok cs =>
      cases cs with
      | nil => exact absurd (hresp (.ok []) (List.mem_cons_self _ _)) (by simp [hasSection])
      | cons c cs' =>
        simp only [multiPageLoop, List.length_cons, List.range'_succ,
          List.zipWith_cons_cons, pageSection, List.headD_cons]
        exact ⟨by rw [hrest.1], by rw [hrest.2]⟩

/-- C4: when every per-page call either fails or returns a response with at
least one choice, and at least one page fails, the combined text is exactly
the newline-join of one `=== Page N ===` section per page in ascending page
order, the failed pages' sections carrying the `[ERROR: ...]` marker and the
others their extracted text; every page also produces a result record, so a
single failure never aborts the remaining pages. -/
theorem extract_multi_page_page_order (outcomes : List PageCall)
    (_hfail : ∃ msg, PageCall.fail msg ∈ outcomes)
    (hresp : ∀ o ∈ outcomes, hasSection o = true) :
    (extract_multi_page outcomes).combinedText =
      String.intercalate "\n"
        (List.zipWith pageSection (List.range' 1 outcomes.length) outcomes) ∧
    (extract_multi_page outcomes).pages.length = outcomes.length ∧
    (extract_multi_page outcomes).pageCount = outcomes.length := by
  obtain ⟨hsec, hlen⟩ := multiPageLoop_sections outcomes 1 hresp
  exact ⟨by simp only [extract_multi_page, hsec], by simpa [extract_multi_page] using hlen,
    rfl⟩

/-- Witness for C4: pages [P1, P2, P3] where the P2 call fails — sections
appear for all three pages in order with P2 carrying the error marker. -/
theorem extract_multi_page_page_order_witness :
    (extract_multi_page [PageCall.ok [some "P1 text"], PageCall.fail "boom",
        PageCall.ok [some "P3 text"]]).combinedText =
      String.intercalate "\n"
        ["\n\n=== Page 1 ===\n\nP1 text",
         "\n\n=== Page 2 ===\n\n[ERROR: boom]",
         "\n\n=== Page 3 ===\n\nP3 text"] ∧
    (extract_multi_page [PageCall.ok [some "P1 text"], PageCall.fail "boom",
        PageCall.ok [some "P3 text"]]).pages.length = 3 := by
  have h := extract_multi_page_page_order
    [PageCall.ok [some "P1 text"], PageCall.fail "boom", PageCall.ok [some "P3 text"]]
    ⟨"boom", by decide⟩ (by decide)
  exact ⟨Eq.trans h.1 (by decide), h.2.1⟩

/-! ## `app/tasks/processing.py` — `process_document_task` as an event trace

The orchestrator is embedded as a function from a run configuration — the
outcomes of every external call it makes (storage download, the OCR calls,
generator construction and generative calls, schema-table lookups) — to the
ordered list of status updates and persistence actions it performs. -/

/-- The reserved sentinel schema name of `_auto_generate_schema`. -/
def adHocSchemaName : String := "__ad_hoc_auto_generated__"

/-- One observable action of a pipeline run: a `_update_document_status`
call, or a row written / document field set inside one of the helpers. -/
inductive Event where
  | statusUpdate (status : String)
  | storeOcrResult (model : String) (extractedText : Option String)
  | updateMetrics
  | storeContent (source : String) (text : String)
  | storeExtraction (extractionType : String)
  | storeClassification (label : String) (confidence : ℚ)
  | setSelectedSchema
  | setDetectedByClassifier (label : String) (confidence : ℚ)
  | createSchemaDef (name : String) (fields : List SchemaField)
  | updateSchemaFields (name : String) (fields : List SchemaField)
  | storeAssignment (schemaName : String) (values : List (String × String))
  | setDetectedFromSchema (category : String) (confidence : ℚ)
  deriving DecidableEq, Repr

/-- The mutable Document columns the enrichment phase reads and writes. -/
structure DocRow where
  detectedType : Option String := none
  selectedSchemaId : Option Nat := none
  deriving DecidableEq, Repr

/-- How the OCR section of the task plays out once a model is selected:
an exception before/around the API calls (client construction or PDF
splitting — caught by the outer `except`), the per-page multi-call path for
a multi-page PDF, or the single-call path whose extracted text is the
result of `_extract_text_from_parasail_response`. -/
inductive OcrCallPlan where
  | failBefore (msg : String)
  | multiPage (outcomes : List PageCall)
  | singleCall (text : Option String)
  deriving DecidableEq, Repr

/-- Configuration of one run: the task's arguments plus the outcome of
every external interaction.  `apiKeyConfigured` models the truthiness of the
`lru_cache`d `settings.parasail_api_key`: `AISchemaGenerator.__init__` and
`SchemaGenerator.__init__` both raise `RuntimeError` exactly when that one
cached value is falsy, so the two generators are constructible under the
same single condition (there are not two independent availability flags in
the source). -/
structure RunConfig where
  downloadResult : Except String Nat
  modelName : Option String
  ocrPlan : OcrCallPlan
  initialSchemaId : Option Nat
  tableCapAvailable : Bool
  extractedTables : List Table
  apiKeyConfigured : Bool
  aiCall : Except String SchemaData
  legacyCall : Except String SchemaData
  adHocExists : Bool
  schemaIdByName : String → Option Nat
  doc : DocRow

/-- OCR section of the task (lines guarded by `if model_name:`): status
updates emitted, whether `parasail_response` is set (it always is — even the
exception path assigns an error dict), and the extracted text. -/
def ocrPhase (plan : OcrCallPlan) : List Event × Bool × Option String :=
  match plan with
  | .failBefore _ =>
    ([.statusUpdate "ocr_processing", .statusUpdate "ocr_failed"], true, none)
  | .multiPage outcomes =>
    ([.statusUpdate "ocr_processing"], true,
      some (extract_multi_page outcomes).combinedText)
  | .singleCall text => ([.statusUpdate "ocr_processing"], true, text)

/-- `_store_ocr_result` and `_update_metrics_with_ocr_data` (lines 184–197):
run whenever a model was selected and `parasail_response` is not `None`. -/
def persistOcrPhase (modelName : Option String) (responsePresent : Bool)
    (parasailText : Option String) : List Event :=
  match modelName with
  | none => []
  | some m =>
    if responsePresent then [.storeOcrResult m parasailText, .updateMetrics] else []

/-- `_store_document_contents`: one Content row per truthy source text, in
the dict order `parasail`, `docling`. -/
def contentPhase (parasailText doclingText : Option String) : List Event :=
  (match parasailText with
   | some t => if t ≠ "" then [Event.storeContent "parasail" t] else []
   | none => []) ++
  (match doclingText with
   | some t => if t ≠ "" then [Event.storeContent "docling" t] else []
   | none => [])

/-- `_extract_and_store_tables` gated by `if docling_extraction:` (lines
207–218): a missing TableExtractor degrades to nothing, extracted tables are
stored one row each plus a single line-items row. -/
def tablePhase (cfg : RunConfig) (doclingExtraction : Option Unit) : List Event :=
  match doclingExtraction with
  | none => []
  | some _ =>
    if cfg.tableCapAvailable then
      if cfg.extractedTables = [] then []
      else
        cfg.extractedTables.map (fun _ => Event.storeExtraction "table") ++
        (if extract_line_items cfg.extractedTables = [] then []
         else [Event.storeExtraction "line_items"])
    else []

/-- The `suggested_schema_id` lookup of `_maybe_classify_document`:
`select SchemaDefinition.id where lower(name) == suggested_schema_name.lower()`. -/
def suggestedSchemaIdOf (cfg : RunConfig) (suggestion : ClassificationResult) :
    Option Nat :=
  match suggestion.suggestedSchemaName with
  | some n => cfg.schemaIdByName (pyLower n)
  | none => none

/-- `_maybe_classify_document`, events: store the Classification row, adopt
a suggested schema when the document has none, and set the detected type for
a non-"unknown" label. -/
def classifyPhaseEvents (cfg : RunConfig) (baseText : String)
    (snippets : List (String × Option String)) (doc : DocRow) : List Event :=
  let suggestion := classify (some baseText) snippets
  [Event.storeClassification suggestion.label suggestion.confidence] ++
  (if doc.selectedSchemaId = none ∧ (suggestedSchemaIdOf cfg suggestion).isSome then
    [Event.setSelectedSchema]
   else []) ++
  (if suggestion.label ≠ "" ∧ suggestion.label ≠ "unknown" then
    [Event.setDetectedByClassifier suggestion.label suggestion.confidence]
   else [])

/-- `_maybe_classify_document`, Document column updates (the committed
`selected_schema_id` / `detected_type` values the later schema phase reads). -/
def classifyPhaseDoc (cfg : RunConfig) (baseText : String)
    (snippets : List (String × Option String)) (doc : DocRow) : DocRow :=
  let suggestion := classify (some baseText) snippets
  let doc₁ :=
    if doc.selectedSchemaId = none ∧ (suggestedSchemaIdOf cfg suggestion).isSome then
      { doc with selectedSchemaId := suggestedSchemaIdOf cfg suggestion }
    else doc
  if suggestion.label ≠ "" ∧ suggestion.label ≠ "unknown" then
    { doc₁ with detectedType := some suggestion.label }
  else doc₁

/-- `_auto_generate_schema` (with `_auto_generate_schema_fallback`): the AI
path writes against the ad-hoc sentinel schema and persists nothing when its
generative call raises.  The legacy path is entered only when the AI
generator's construction fails and `SchemaGenerator()` is then constructible
— but both constructors gate on the same cached `parasail_api_key`, so the
second condition repeats the first and the legacy branch (which would
substitute the heuristic fallback proposal and write against a schema named
by the proposal) is dead code; when the key is missing the function returns
with nothing persisted. -/
def autoGenerateSchema (cfg : RunConfig) (ocrText : String) (doc : DocRow) :
    List Event :=
  if cfg.apiKeyConfigured then
    match cfg.aiCall with
    | .error _ => []
    | .ok data =>
      (if cfg.adHocExists then [Event.updateSchemaFields adHocSchemaName data.fields]
       else [Event.createSchemaDef adHocSchemaName data.fields]) ++
      (if data.extractedValues ≠ [] then
        [Event.storeAssignment adHocSchemaName data.extractedValues] ++
        (if doc.detectedType = none ∧ data.category ≠ "unknown" then
          [Event.setDetectedFromSchema data.category (mkRat 9 10)]
         else [])
       else [])
  else if cfg.apiKeyConfigured then
    let data := generate_schema_from_text cfg.legacyCall ocrText
    (if (cfg.schemaIdByName (pyLower data.schemaName)).isSome then []
     else [Event.createSchemaDef data.schemaName data.fields]) ++
    (if data.extractedValues ≠ [] then
      [Event.storeAssignment data.schemaName data.extractedValues] ++
      (if doc.selectedSchemaId = none then [Event.setSelectedSchema] else []) ++
      (if doc.detectedType = none ∧ data.category ≠ "unknown" then
        [Event.setDetectedFromSchema data.category (mkRat 8 10)]
       else [])
     else [])
  else []

/-- Enrichment block of the task (lines 220–239): classification and schema
inference run only when no `initial_schema_id` was supplied;
`_extract_key_value_pairs` is a logged no-op. -/
def enrichmentPhase (cfg : RunConfig) (baseText : String)
    (snippets : List (String × Option String)) : List Event :=
  if cfg.initialSchemaId = none then
    classifyPhaseEvents cfg baseText snippets cfg.doc ++
    autoGenerateSchema cfg baseText (classifyPhaseDoc cfg baseText snippets cfg.doc)
  else []

/-- `process_document_task`: the full run as the ordered list of actions it
performs.  `docling_extraction` and `docling_text` are initialised to `None`
and never reassigned (Docling processing is disabled in this version of the
task), exactly as in the source. -/
def runPipeline (cfg : RunConfig) : List Event :=
  Event.statusUpdate "downloading" ::
  match cfg.downloadResult with
  | .error _ => [Event.statusUpdate "error"]
  | .ok _ =>
    let doclingExtraction : Option Unit := none
    let doclingText : Option String := none
    let (ocrEvents, responsePresent, parasailText) :=
      match cfg.modelName with
      | none => ([], false, (none : Option String))
      | some _ => ocrPhase cfg.ocrPlan
    Event.statusUpdate "downloaded" ::
    ocrEvents ++
    Event.statusUpdate "processing" ::
    persistOcrPhase cfg.modelName responsePresent parasailText ++
    contentPhase parasailText doclingText ++
    tablePhase cfg doclingExtraction ++
    (let baseText := pyOr parasailText doclingText
     if pyTruthy baseText then
       enrichmentPhase cfg (baseText.getD "")
         [("parasail", parasailText), ("docling", doclingText)]
     else []) ++
    [Event.statusUpdate "processed"]

/-! ## Status history and event shape lemmas for the pipeline model -/

/-- The status history of a run: the arguments of its
`_update_document_status` calls in order. -/
def statusesOf (events : List Event) : List String :=
  events.filterMap fun e =>
    match e with
    | .statusUpdate s => some s
    | _ => none

theorem statusesOf_ocrPhase (plan : OcrCallPlan) :
    statusesOf (ocrPhase plan).1 =
      match plan with
      | .failBefore _ => ["ocr_processing", "ocr_failed"]
      | _ => ["ocr_processing"] := by
  cases plan <;> rfl

theorem statusesOf_persistOcrPhase (m : Option String) (r : Bool) (t : Option String) :
    statusesOf (persistOcrPhase m r t) = [] := by
  cases m with
  | none => rfl
  | some m => cases r <;> rfl

theorem statusesOf_contentPhase (pt dt : Option String) :
    statusesOf (contentPhase pt dt) = [] := by
  unfold contentPhase statusesOf
  rw [List.filterMap_append]
  cases pt <;> cases dt <;> simp only [List.filterMap_nil, List.append_nil] <;>
    (try split) <;> (try split) <;> rfl

theorem statusesOf_tablePhase (cfg : RunConfig) (d : Option Unit) :
    statusesOf (tablePhase cfg d) = [] := by
  unfold tablePhase statusesOf
  repeat' split
  all_goals simp [List.filterMap_append, List.filterMap_map]

theorem statusesOf_classifyPhaseEvents (cfg : RunConfig) (t : String)
    (sn : List (String × Option String)) (doc : DocRow) :
    statusesOf (classifyPhaseEvents cfg t sn doc) = [] := by
  unfold classifyPhaseEvents
  dsimp only
  unfold statusesOf
  simp only [List.filterMap_append]
  repeat' split
  all_goals rfl

theorem statusesOf_autoGenerateSchema (cfg : RunConfig) (t : String) (doc : DocRow) :
    statusesOf (autoGenerateSchema cfg t doc) = [] := by
  unfold autoGenerateSchema
  dsimp only
  unfold statusesOf
  repeat' split
  all_goals (try simp only [List.filterMap_append])
  all_goals rfl

theorem statusesOf_enrichmentPhase (cfg : RunConfig) (t : String)
    (sn : List (String × Option String)) :
    statusesOf (enrichmentPhase cfg t sn) = [] := by
  unfold enrichmentPhase statusesOf
  split
  · rw [List.filterMap_append]
    have h1 := statusesOf_classifyPhaseEvents cfg t sn cfg.doc
    have h2 := statusesOf_autoGenerateSchema cfg t (classifyPhaseDoc cfg t sn cfg.doc)
    unfold statusesOf at h1 h2
    rw [h1, h2]
    rfl
  · rfl

theorem statusesOf_append (a b : List Event) :
    statusesOf (a ++ b) = statusesOf a ++ statusesOf b :=
  List.filterMap_append a b _

theorem statusesOf_cons_status (s : String) (l : List Event) :
    statusesOf (Event.statusUpdate s :: l) = s :: statusesOf l := rfl

theorem statusesOf_nil : statusesOf [] = [] := rfl

theorem statusesOf_enrichIte (cfg : RunConfig) (c : Prop) [Decidable c]
    (t : String) (sn : List (String × Option String)) :
    statusesOf (if c then enrichmentPhase cfg t sn else []) = [] := by
  split
  · exact statusesOf_enrichmentPhase cfg t sn
  · rfl

/-- The status history of any run, as a function of the download outcome,
the model selection and the OCR call plan alone. -/
theorem statusesOf_runPipeline (cfg : RunConfig) :
    statusesOf (runPipeline cfg) =
      match cfg.downloadResult with
      | .error _ => ["downloading", "error"]
      | .ok _ =>
        "downloading" :: "downloaded" ::
        ((match cfg.modelName with
          | none => []
          | some _ =>
            match cfg.ocrPlan with
            | .failBefore _ => ["ocr_processing", "ocr_failed"]
            | _ => ["ocr_processing"]) ++
          ["processing", "processed"]) := by
  unfold runPipeline
  cases cfg.downloadResult with
  | error msg => rfl
  | ok n =>
    cases cfg.modelName with
    | none =>
      dsimp only
      simp only [List.cons_append, List.nil_append, statusesOf_cons_status,
        statusesOf_append, statusesOf_nil, statusesOf_persistOcrPhase,
        statusesOf_contentPhase, statusesOf_tablePhase, statusesOf_enrichIte]
    | some m =>
      cases cfg.ocrPlan <;>
        (dsimp only [ocrPhase]
         simp only [List.cons_append, List.nil_append, statusesOf_cons_status,
           statusesOf_append, statusesOf_nil, statusesOf_persistOcrPhase,
           statusesOf_contentPhase, statusesOf_tablePhase, statusesOf_enrichIte])

/-- Rank of a status in the forward chain
uploaded < downloading < downloaded < processing < processed;
statuses outside the chain (the OCR sub-statuses and `error`) rank none. -/
def chainRank : String → Option Nat
  | "uploaded" => some 0
  | "downloading" => some 1
  | "downloaded" => some 2
  | "processing" => some 3
  | "processed" => some 4
  | _ => none

/-- A neutral run configuration used to instantiate the pipeline theorems:
download succeeds, no OCR model, no capabilities available. -/
def baseConfig : RunConfig :=
  { downloadResult := .ok 3
    modelName := none
    ocrPlan := .singleCall none
    initialSchemaId := none
    tableCapAvailable := false
    extractedTables := []
    apiKeyConfigured := false
    aiCall := .error ""
    legacyCall := .error ""
    adHocExists := false
    schemaIdByName := fun _ => none
    doc := {} }

/-- Structural non-decreasing check on a list of ranks. -/
def ranksNondecreasing : List Nat → Bool
  | [] => true
  | [_] => true
  | a :: b :: rest => decide (a ≤ b) && ranksNondecreasing (b :: rest)

/-- C5: within one run the status history never regresses along the forward
chain, the terminal `error` status occurs exactly on storage-download
failure (directly after `downloading`, ending the run), and a successful
download always ends the run at `processed`. -/
theorem pipeline_status_forward_only (cfg : RunConfig) :
    ranksNondecreasing ((statusesOf (runPipeline cfg)).filterMap chainRank) = true ∧
    (∀ msg, cfg.downloadResult = Except.error msg →
      statusesOf (runPipeline cfg) = ["downloading", "error"]) ∧
    ("error" ∈ statusesOf (runPipeline cfg) →
      ∃ msg, cfg.downloadResult = Except.error msg) ∧
    (∀ n, cfg.downloadResult = Except.ok n →
      (statusesOf (runPipeline cfg)).getLast? = some "processed") := by
  rw [statusesOf_runPipeline]
  cases cfg.downloadResult with
  | error msg =>
    dsimp only
    refine ⟨by decide, fun m h => rfl, fun _ => ⟨msg, rfl⟩, ?_⟩
    intro k h
    exact absurd h (by simp)
  | ok n =>
    cases cfg.modelName with
    | none =>
      dsimp only
      refine ⟨by decide, ?_, ?_, ?_⟩
      · intro m h; exact absurd h (by simp)
      · intro hmem; exact absurd hmem (by decide)
      · intro k _; decide
    | some m =>
      cases cfg.ocrPlan <;>
        (dsimp only
         refine ⟨by decide, ?_, ?_, ?_⟩
         · intro m h; exact absurd h (by simp)
         · intro hmem; exact absurd hmem (by decide)
         · intro k _; decide)

/-- Witness for C5: a successful-download run ends at `processed`; a failed
download yields exactly `downloading`, `error`. -/
theorem pipeline_status_forward_only_witness :
    (statusesOf (runPipeline baseConfig)).getLast? = some "processed" ∧
    statusesOf (runPipeline { baseConfig with downloadResult := .error "disk" }) =
      ["downloading", "error"] :=
  ⟨(pipeline_status_forward_only baseConfig).2.2.2 3 rfl,
   (pipeline_status_forward_only
     { baseConfig with downloadResult := .error "disk" }).2.1 "disk" rfl⟩

/-! ## Event shape lemmas: which constructors each phase can emit -/

theorem mem_persistOcrPhase {e : Event} {m : Option String} {r : Bool}
    {t : Option String} (he : e ∈ persistOcrPhase m r t) :
    (∃ m' t', e = .storeOcrResult m' t') ∨ e = .updateMetrics := by
  cases m with
  | none => simp [persistOcrPhase] at he
  | some m =>
    cases r with
    | false => simp [persistOcrPhase] at he
    | true =>
      simp [persistOcrPhase] at he
      rcases he with rfl | rfl
      · exact Or.inl ⟨m, t, rfl⟩
      · exact Or.inr rfl

theorem mem_contentPhase {e : Event} {pt dt : Option String}
    (he : e ∈ contentPhase pt dt) : ∃ s t', e = .storeContent s t' := by
  unfold contentPhase at he
  rw [List.mem_append] at he
  rcases he with he | he <;>
    (first
      | (cases pt with
         | none => simp at he
         | some t =>
           by_cases ht : t ≠ "" <;> simp [ht] at he
           exact ⟨"parasail", t, he⟩)
      | (cases dt with
         | none => simp at he
         | some t =>
           by_cases ht : t ≠ "" <;> simp [ht] at he
           exact ⟨"docling", t, he⟩))

theorem mem_classifyPhaseEvents {e : Event} {cfg : RunConfig} {t : String}
    {sn : List (String × Option String)} {doc : DocRow}
    (he : e ∈ classifyPhaseEvents cfg t sn doc) :
    (∃ l c, e = .storeClassification l c) ∨ e = .setSelectedSchema ∨
    (∃ l c, e = .setDetectedByClassifier l c) := by
  unfold classifyPhaseEvents at he
  dsimp only at he
  rw [List.mem_append, List.mem_append] at he
  rcases he with (he | he) | he
  · rw [List.mem_singleton] at he
    exact Or.inl ⟨_, _, he⟩
  · split at he
    · rw [List.mem_singleton] at he
      exact Or.inr (Or.inl he)
    · simp at he
  · split at he
    · rw [List.mem_singleton] at he
      exact Or.inr (Or.inr ⟨_, _, he⟩)
    · simp at he

theorem mem_autoGenerateSchema {e : Event} {cfg : RunConfig} {t : String}
    {doc : DocRow} (he : e ∈ autoGenerateSchema cfg t doc) :
    (∃ n f, e = .createSchemaDef n f) ∨ (∃ n f, e = .updateSchemaFields n f) ∨
    (∃ n v, e = .storeAssignment n v) ∨ (∃ c q, e = .setDetectedFromSchema c q) ∨
    e = .setSelectedSchema := by
  unfold autoGenerateSchema at he
  dsimp only at he
  repeat' split at he
  all_goals
    simp only [List.mem_append, List.mem_singleton, List.not_mem_nil, or_false,
      false_or] at he
  all_goals aesop

theorem enrichmentPhase_of_initialSchema {cfg : RunConfig} {sid : Nat}
    (h : cfg.initialSchemaId = some sid) (t : String)
    (sn : List (String × Option String)) : enrichmentPhase cfg t sn = [] := by
  unfold enrichmentPhase
  rw [if_neg]
  simp [h]

theorem mem_enrichmentPhase {e : Event} {cfg : RunConfig} {t : String}
    {sn : List (String × Option String)} (he : e ∈ enrichmentPhase cfg t sn) :
    cfg.initialSchemaId = none ∧
    (((∃ l c, e = .storeClassification l c) ∨ e = .setSelectedSchema ∨
      (∃ l c, e = .setDetectedByClassifier l c)) ∨
     e ∈ autoGenerateSchema cfg t (classifyPhaseDoc cfg t sn cfg.doc)) := by
  unfold enrichmentPhase at he
  split at he
  case isTrue h =>
    refine ⟨h, ?_⟩
    rw [List.mem_append] at he
    rcases he with he | he
    · exact Or.inl (mem_classifyPhaseEvents he)
    · exact Or.inr he
  case isFalse => simp at he

theorem tablePhase_none (cfg : RunConfig) : tablePhase cfg none = [] := rfl

theorem mem_runPipeline {cfg : RunConfig} {e : Event} (he : e ∈ runPipeline cfg) :
    (∃ s, e = .statusUpdate s) ∨
    (∃ m r t, e ∈ persistOcrPhase m r t) ∨
    (∃ pt dt, e ∈ contentPhase pt dt) ∨
    (∃ t sn, e ∈ enrichmentPhase cfg t sn) := by
  unfold runPipeline at he
  rw [List.mem_cons] at he
  rcases he with rfl | he
  · exact Or.inl ⟨_, rfl⟩
  cases hdr : cfg.downloadResult with
  | error msg =>
    rw [hdr] at he
    simp only [List.mem_singleton] at he
    exact Or.inl ⟨_, he⟩
  | ok n =>
    rw [hdr] at he
    dsimp only at he
    cases hm : cfg.modelName with
    | none =>
      rw [hm] at he
      dsimp only at he
      rw [tablePhase_none] at he
      split at he <;>
        (simp only [List.cons_append, List.nil_append, List.append_nil,
           List.mem_cons, List.mem_append, List.mem_singleton, List.not_mem_nil,
           or_false, false_or] at he
         aesop)
    | some m =>
      rw [hm] at he
      dsimp only at he
      cases hp : cfg.ocrPlan <;>
        (rw [hp] at he
         dsimp only [ocrPhase] at he
         rw [tablePhase_none] at he
         split at he <;>
           (simp only [List.cons_append, List.nil_append, List.append_nil,
              List.mem_cons, List.mem_append, List.mem_singleton, List.not_mem_nil,
              or_false, false_or] at he
            aesop))

/-! ## Claim theorems over the pipeline model -/

/-- Recogniser for DocumentExtraction writes. -/
def isStoreExtraction : Event → Bool
  | .storeExtraction _ => true
  | _ => false

/-- Recogniser for the classifier's writes (`_maybe_classify_document`):
the Classification row and the classifier-driven detected-type update. -/
def isClassifierWrite : Event → Bool
  | .storeClassification _ _ => true
  | .setDetectedByClassifier _ _ => true
  | _ => false

/-- Recogniser for any classification or schema-inference write. -/
def isEnrichmentWrite : Event → Bool
  | .storeClassification _ _ => true
  | .setSelectedSchema => true
  | .setDetectedByClassifier _ _ => true
  | .createSchemaDef _ _ => true
  | .updateSchemaFields _ _ => true
  | .storeAssignment _ _ => true
  | .setDetectedFromSchema _ _ => true
  | _ => false

/-- Recogniser for SchemaAssignment writes. -/
def isStoreAssignment : Event → Bool
  | .storeAssignment _ _ => true
  | _ => false

/-- Bool check: is this event an assignment against the given schema name. -/
def assignsTo (name : String) : Event → Bool
  | .storeAssignment n _ => n = name
  | _ => false

/-- The run used to refute C2: download succeeds, the table-extraction
capability is available and the document has an extractable table, yet the
pipeline persists no DocumentExtraction row (the `if docling_extraction:`
gate is never satisfied because Docling never runs). -/
def tableCapConfig : RunConfig :=
  { baseConfig with tableCapAvailable := true, extractedTables := [exampleTable] }

/-- C2 counterexample: a successful-download run with the structural-parse
capability available and a non-empty table attempts no table extraction and
persists no DocumentExtraction row. -/
theorem table_extraction_skipped_despite_capability :
    tableCapConfig.tableCapAvailable = true ∧
    tableCapConfig.extractedTables = [exampleTable] ∧
    tableCapConfig.downloadResult = Except.ok 3 ∧
    runPipeline tableCapConfig =
      [Event.statusUpdate "downloading", Event.statusUpdate "downloaded",
       Event.statusUpdate "processing", Event.statusUpdate "processed"] ∧
    (runPipeline tableCapConfig).all (fun e => !isStoreExtraction e) = true := by
  refine ⟨rfl, rfl, rfl, by decide, by decide⟩

/-- C2 amended: no run of this pipeline version ever stores a
DocumentExtraction row — table extraction is gated on a Docling structural
extraction, and `docling_extraction` is always `None` because Docling
processing is disabled; capability availability and OCR outcome are
irrelevant. -/
theorem runPipeline_never_stores_extractions (cfg : RunConfig) :
    (runPipeline cfg).all (fun e => !isStoreExtraction e) = true := by
  rw [List.all_eq_true]
  intro e he
  rcases mem_runPipeline he with ⟨s, rfl⟩ | ⟨m, r, t, hp⟩ | ⟨pt, dt, hp⟩ | ⟨t, sn, hp⟩
  · rfl
  · rcases mem_persistOcrPhase hp with ⟨m', t', rfl⟩ | rfl <;> rfl
  · obtain ⟨s, t', rfl⟩ := mem_contentPhase hp
    rfl
  · rcases (mem_enrichmentPhase hp).2 with (⟨l, c, rfl⟩ | rfl | ⟨l, c, rfl⟩) | hg
    · rfl
    · rfl
    · rfl
    · rcases mem_autoGenerateSchema hg with
        ⟨n, f, rfl⟩ | ⟨n, f, rfl⟩ | ⟨n, v, rfl⟩ | ⟨c, q, rfl⟩ | rfl <;> rfl

/-- C10: when the caller supplied an `initial_schema_id`, the run performs
no classifier write at all: no DocumentClassification row is stored and the
classifier never sets `detected_type`/`detected_confidence`. -/
theorem initial_schema_skips_classification (cfg : RunConfig) (sid : Nat)
    (h : cfg.initialSchemaId = some sid) :
    (runPipeline cfg).all (fun e => !isClassifierWrite e) = true := by
  rw [List.all_eq_true]
  intro e he
  rcases mem_runPipeline he with ⟨s, rfl⟩ | ⟨m, r, t, hp⟩ | ⟨pt, dt, hp⟩ | ⟨t, sn, hp⟩
  · rfl
  · rcases mem_persistOcrPhase hp with ⟨m', t', rfl⟩ | rfl <;> rfl
  · obtain ⟨s, t', rfl⟩ := mem_contentPhase hp
    rfl
  · rw [enrichmentPhase_of_initialSchema h] at hp
    simp at hp

/-- The run used to witness C10: an `initial_schema_id` was supplied and OCR
produced classifiable text. -/
def initialSchemaConfig : RunConfig :=
  { baseConfig with
    initialSchemaId := some 7
    modelName := some "m1"
    apiKeyConfigured := true
    ocrPlan := .singleCall (some "This is a binding contract.") }

/-- Witness for C10 at a concrete run with `initial_schema_id` supplied. -/
theorem initial_schema_skips_classification_witness :
    (runPipeline initialSchemaConfig).all (fun e => !isClassifierWrite e) = true :=
  initial_schema_skips_classification initialSchemaConfig 7 rfl

theorem autoGenerateSchema_ai_error {cfg : RunConfig} {msg : String}
    (h1 : cfg.apiKeyConfigured = true) (h2 : cfg.aiCall = Except.error msg)
    (t : String) (doc : DocRow) : autoGenerateSchema cfg t doc = [] := by
  unfold autoGenerateSchema
  rw [if_pos h1, h2]

theorem autoGenerateSchema_no_key {cfg : RunConfig}
    (h : cfg.apiKeyConfigured = false) (t : String) (doc : DocRow) :
    autoGenerateSchema cfg t doc = [] := by
  unfold autoGenerateSchema
  rw [if_neg (by simp [h]), if_neg (by simp [h])]

theorem autoGenerateSchema_assigns_only_sentinel {cfg : RunConfig} {t : String}
    {doc : DocRow} {name : String} {vals : List (String × String)}
    (he : Event.storeAssignment name vals ∈ autoGenerateSchema cfg t doc) :
    name = adHocSchemaName := by
  unfold autoGenerateSchema at he
  by_cases hk : cfg.apiKeyConfigured = true
  · rw [if_pos hk] at he
    cases hcall : cfg.aiCall with
    | error msg =>
      rw [hcall] at he
      simp at he
    | ok data =>
      rw [hcall] at he
      dsimp only at he
      repeat' split at he
      all_goals simp_all
  · rw [if_neg hk, if_neg hk] at he
    simp at he

theorem ai_schema_events_mem_autoGenerateSchema {cfg : RunConfig} {t : String}
    (doc : DocRow) {data : SchemaData} (hai : cfg.apiKeyConfigured = true)
    (hcall : cfg.aiCall = Except.ok data) (hval : data.extractedValues ≠ []) :
    Event.storeAssignment adHocSchemaName data.extractedValues ∈
      autoGenerateSchema cfg t doc ∧
    (cfg.adHocExists = true →
      Event.updateSchemaFields adHocSchemaName data.fields ∈
        autoGenerateSchema cfg t doc) ∧
    (cfg.adHocExists = false →
      Event.createSchemaDef adHocSchemaName data.fields ∈
        autoGenerateSchema cfg t doc) := by
  unfold autoGenerateSchema
  rw [if_pos hai, hcall]
  dsimp only
  refine ⟨?_, ?_, ?_⟩
  · rw [List.mem_append]
    right
    rw [if_pos hval]
    exact List.mem_append_left _ (List.mem_singleton.mpr rfl)
  · intro hex
    rw [hex]
    exact List.mem_append_left _ (by simp)
  · intro hex
    rw [hex]
    exact List.mem_append_left _ (by simp)

theorem autoGen_sub_enrichmentPhase {cfg : RunConfig} {t : String}
    {sn : List (String × Option String)} {e : Event}
    (hinit : cfg.initialSchemaId = none)
    (he : e ∈ autoGenerateSchema cfg t (classifyPhaseDoc cfg t sn cfg.doc)) :
    e ∈ enrichmentPhase cfg t sn := by
  unfold enrichmentPhase
  rw [if_pos hinit]
  exact List.mem_append_right _ he

theorem enrichment_sub_runPipeline {cfg : RunConfig} {e : Event} {n : Nat}
    {m t : String} (hd : cfg.downloadResult = Except.ok n)
    (hm : cfg.modelName = some m) (hp : cfg.ocrPlan = .singleCall (some t))
    (ht : t ≠ "")
    (he : e ∈ enrichmentPhase cfg t [("parasail", some t), ("docling", none)]) :
    e ∈ runPipeline cfg := by
  unfold runPipeline
  rw [hd, hm, hp]
  dsimp only [ocrPhase]
  have h1 : pyTruthy (some t) = true := by simp [pyTruthy, ht]
  have h2 : pyOr (some t) none = some t := by simp [pyOr, h1]
  rw [h2]
  simp only [h1, if_true, Option.getD_some]
  simp only [List.cons_append, List.nil_append, List.mem_cons, List.mem_append]
  tauto

/-- The run used to refute C3: OCR produced text with key-value lines, no
initial schema was supplied, the AI schema generator is available (the API
key is configured) but its generative call fails. -/
def aiFailConfig : RunConfig :=
  { baseConfig with
    modelName := some "m1"
    ocrPlan := .singleCall (some "Invoice Number: INV-001\nTotal: 42.00")
    apiKeyConfigured := true
    aiCall := .error "invalid JSON" }

/-- C3 counterexample: with OCR text present and no initial schema, a
failing AI generative call leaves the run with no schema artifact at all —
the heuristic fallback is not consulted, so schema generation ends as a bare
failure. -/
theorem schema_generation_bare_failure :
    aiFailConfig.initialSchemaId = none ∧
    aiFailConfig.downloadResult = Except.ok 3 ∧
    aiFailConfig.ocrPlan =
      .singleCall (some "Invoice Number: INV-001\nTotal: 42.00") ∧
    (runPipeline aiFailConfig).all (fun e => !isStoreAssignment e) = true ∧
    (runPipeline aiFailConfig).all (fun e => !isStoreExtraction e) = true := by
  refine ⟨rfl, rfl, rfl, by decide, by decide⟩

/-- C3 amended: no generative failure mode ever persists a schema artifact.
When the AI generator is constructible but its generative call fails, the
exception is swallowed at the call site and nothing is stored; when the
parasail API key is unconfigured, the AI generator's construction fails and
the legacy `SchemaGenerator()` — gated on the same cached key — fails too,
so the run again stores nothing.  The heuristic `key: value` fallback
proposal, reachable only through that legacy generator, is dead code and
never yields a persisted artifact. -/
theorem schema_generation_fallback_amended :
    (∀ (cfg : RunConfig) (msg : String), cfg.apiKeyConfigured = true →
      cfg.aiCall = Except.error msg →
      (runPipeline cfg).all (fun e => !isStoreAssignment e) = true) ∧
    (∀ cfg : RunConfig, cfg.apiKeyConfigured = false →
      (runPipeline cfg).all (fun e => !isStoreAssignment e) = true) := by
  have hmain : ∀ cfg : RunConfig,
      (∀ t doc, autoGenerateSchema cfg t doc = []) →
      (runPipeline cfg).all (fun e => !isStoreAssignment e) = true := by
    intro cfg hgen
    rw [List.all_eq_true]
    intro e he
    rcases mem_runPipeline he with ⟨s, rfl⟩ | ⟨m, r, t, hp⟩ | ⟨pt, dt, hp⟩ | ⟨t, sn, hp⟩
    · rfl
    · rcases mem_persistOcrPhase hp with ⟨m', t', rfl⟩ | rfl <;> rfl
    · obtain ⟨s, t', rfl⟩ := mem_contentPhase hp
      rfl
    · rcases (mem_enrichmentPhase hp).2 with (⟨l, c, rfl⟩ | rfl | ⟨l, c, rfl⟩) | hg
      · rfl
      · rfl
      · rfl
      · rw [hgen] at hg
        simp at hg
  constructor
  · intro cfg msg h1 h2
    exact hmain cfg (fun t doc => autoGenerateSchema_ai_error h1 h2 t doc)
  · intro cfg h
    exact hmain cfg (fun t doc => autoGenerateSchema_no_key h t doc)

/-- The run used to witness the no-key half of C3: the API key is missing,
so the OCR client constructor raises (caught as an OCR failure) and neither
schema generator is constructible. -/
def noKeyConfig : RunConfig :=
  { baseConfig with
    modelName := some "m1"
    ocrPlan := .failBefore "PARASAIL_API_KEY is not configured." }

/-- Witness for C3 at concrete runs: the failed-AI-call run and the
missing-key run both store no SchemaAssignment. -/
theorem schema_generation_fallback_amended_witness :
    (runPipeline aiFailConfig).all (fun e => !isStoreAssignment e) = true ∧
    (runPipeline noKeyConfig).all (fun e => !isStoreAssignment e) = true := by
  constructor
  · exact schema_generation_fallback_amended.1 aiFailConfig "invalid JSON" rfl rfl
  · exact schema_generation_fallback_amended.2 noKeyConfig rfl

/-- An AI-generator proposal with non-empty extracted values. -/
def invoiceProposal : SchemaData :=
  { schemaName := "Invoice Schema"
    category := "invoice"
    description := "parsed proposal"
    fields := [{ key := "total", query := none, description := "",
                 valueType := "string", required := true }]
    extractedValues := [("total", "42.00")] }

/-- C6: with an `initial_schema_id` supplied, classification and schema
inference are skipped entirely (no classification or schema write of any
kind).  Without one, every SchemaAssignment any run stores targets the
reserved `__ad_hoc_auto_generated__` sentinel — the only generator that can
persist anything is the AI one, which always uses the sentinel (the legacy
proposal-named path is unreachable, both generators being gated on the same
API key) — and on a successful inference the sentinel row is created when
absent and has its fields updated when present. -/
theorem ad_hoc_schema_assignment_sentinel :
    (∀ (cfg : RunConfig) (sid : Nat), cfg.initialSchemaId = some sid →
      (runPipeline cfg).all (fun e => !isEnrichmentWrite e) = true) ∧
    (∀ (cfg : RunConfig) (name : String) (vals : List (String × String)),
      Event.storeAssignment name vals ∈ runPipeline cfg →
      name = adHocSchemaName) ∧
    (∀ (cfg : RunConfig) (n : Nat) (m t : String) (data : SchemaData),
      cfg.downloadResult = Except.ok n → cfg.modelName = some m →
      cfg.ocrPlan = .singleCall (some t) → t ≠ "" →
      cfg.initialSchemaId = none → cfg.apiKeyConfigured = true →
      cfg.aiCall = Except.ok data → data.extractedValues ≠ [] →
      Event.storeAssignment adHocSchemaName data.extractedValues ∈ runPipeline cfg ∧
      (cfg.adHocExists = false →
        Event.createSchemaDef adHocSchemaName data.fields ∈ runPipeline cfg) ∧
      (cfg.adHocExists = true →
        Event.updateSchemaFields adHocSchemaName data.fields ∈ runPipeline cfg)) := by
  refine ⟨?_, ?_, ?_⟩
  · intro cfg sid h
    rw [List.all_eq_true]
    intro e he
    rcases mem_runPipeline he with ⟨s, rfl⟩ | ⟨m, r, t, hp⟩ | ⟨pt, dt, hp⟩ | ⟨t, sn, hp⟩
    · rfl
    · rcases mem_persistOcrPhase hp with ⟨m', t', rfl⟩ | rfl <;> rfl
    · obtain ⟨s, t', rfl⟩ := mem_contentPhase hp
      rfl
    · rw [enrichmentPhase_of_initialSchema h] at hp
      simp at hp
  · intro cfg name vals he
    rcases mem_runPipeline he with ⟨s, heq⟩ | ⟨m, r, t, hp⟩ | ⟨pt, dt, hp⟩ | ⟨t, sn, hp⟩
    · exact absurd heq (by simp)
    · rcases mem_persistOcrPhase hp with ⟨m', t', heq⟩ | heq <;>
        exact absurd heq (by simp)
    · obtain ⟨s, t', heq⟩ := mem_contentPhase hp
      exact absurd heq (by simp)
    · rcases (mem_enrichmentPhase hp).2 with (⟨l, c, heq⟩ | heq | ⟨l, c, heq⟩) | hg
      · exact absurd heq (by simp)
      · exact absurd heq (by simp)
      · exact absurd heq (by simp)
      · exact autoGenerateSchema_assigns_only_sentinel hg
  · intro cfg n m t data hd hm hp ht hinit hkey hcall hval
    obtain ⟨h1, h2, h3⟩ := ai_schema_events_mem_autoGenerateSchema
      (classifyPhaseDoc cfg t [("parasail", some t), ("docling", none)] cfg.doc)
      hkey hcall hval
    exact ⟨enrichment_sub_runPipeline hd hm hp ht
        (autoGen_sub_enrichmentPhase hinit h1),
      fun hex => enrichment_sub_runPipeline hd hm hp ht
        (autoGen_sub_enrichmentPhase hinit (h3 hex)),
      fun hex => enrichment_sub_runPipeline hd hm hp ht
        (autoGen_sub_enrichmentPhase hinit (h2 hex))⟩

/-- The run used to witness the AI inference path of C6 (sentinel row not
yet present). -/
def aiOkConfig : RunConfig :=
  { baseConfig with
    modelName := some "m1"
    ocrPlan := .singleCall (some "hello world")
    apiKeyConfigured := true
    aiCall := .ok invoiceProposal }

/-- The same run after the sentinel row exists. -/
def aiOkExistsConfig : RunConfig :=
  { aiOkConfig with adHocExists := true }

/-- Witness for C6 at concrete runs: skip with an initial schema, sentinel
assignment plus sentinel creation on first use, and sentinel field update
when the row already exists. -/
theorem ad_hoc_schema_assignment_sentinel_witness :
    (runPipeline initialSchemaConfig).all (fun e => !isEnrichmentWrite e) = true ∧
    Event.storeAssignment adHocSchemaName [("total", "42.00")] ∈
      runPipeline aiOkConfig ∧
    Event.createSchemaDef adHocSchemaName invoiceProposal.fields ∈
      runPipeline aiOkConfig ∧
    Event.updateSchemaFields adHocSchemaName invoiceProposal.fields ∈
      runPipeline aiOkExistsConfig := by
  refine ⟨?_, ?_, ?_, ?_⟩
  · exact ad_hoc_schema_assignment_sentinel.1 initialSchemaConfig 7 rfl
  · exact (ad_hoc_schema_assignment_sentinel.2.2 aiOkConfig 3 "m1" "hello world"
      invoiceProposal rfl rfl rfl (by decide) rfl rfl rfl (by decide)).1
  · exact (ad_hoc_schema_assignment_sentinel.2.2 aiOkConfig 3 "m1" "hello world"
      invoiceProposal rfl rfl rfl (by decide) rfl rfl rfl (by decide)).2.1 rfl
  · exact (ad_hoc_schema_assignment_sentinel.2.2 aiOkExistsConfig 3 "m1"
      "hello world" invoiceProposal rfl rfl rfl (by decide) rfl rfl rfl
      (by decide)).2.2 rfl

/-! ## `_update_document_status` — the details-merge invariant (C9) -/

/-- The Document columns touched by `_update_document_status`.  The values
of the `details` JSON map are an arbitrary type `α`. -/
structure DocStatusState (α : Type) where
  status : String
  details : List (String × α)
  lastProcessedAt : Nat
  deriving Repr

/-- The dict comprehension
`{key: value for key, value in details.items() if value is not None}`. -/
def cleanDetails {α : Type} (details : List (String × Option α)) :
    List (String × α) :=
  details.filterMap fun p =>
    match p.2 with
    | some v => some (p.1, v)
    | none => none

/-- `_update_document_status`: set the status, merge the cleaned details
into the existing map (`{**(document.details or {}), **cleaned_details}`),
and refresh `last_processed_at`. -/
def updateDocumentStatus {α : Type} (doc : DocStatusState α) (status : String)
    (details : List (String × Option α)) (now : Nat) : DocStatusState α :=
  { status := status
    details := (cleanDetails details).foldl (fun d p => dictSet d p.1 p.2) doc.details
    lastProcessedAt := now }

theorem mem_dictKeys_dictSet {β : Type} (d : List (String × β)) (k : String)
    (v : β) (a : String) :
    a ∈ dictKeys (dictSet d k v) ↔ a = k ∨ a ∈ dictKeys d := by
  induction d with
  | nil => simp [dictSet, dictKeys]
  | cons p rest ih =>
    by_cases h : p.1 = k
    · rcases p with ⟨k₀, v₀⟩
      simp only at h
      simp [dictSet, h, dictKeys]
    · rcases p with ⟨k₀, v₀⟩
      simp only at h
      simp only [dictSet, if_neg h, dictKeys, List.map_cons, List.mem_cons] at *
      rw [ih]
      tauto

theorem mem_dictKeys_foldl_dictSet {β : Type} (l : List (String × β))
    (d : List (String × β)) (a : String) :
    a ∈ dictKeys (l.foldl (fun d p => dictSet d p.1 p.2) d) ↔
      a ∈ dictKeys d ∨ a ∈ l.map Prod.fst := by
  induction l generalizing d with
  | nil => simp
  | cons p rest ih =>
    rw [List.foldl_cons, ih, mem_dictKeys_dictSet]
    simp only [List.map_cons, List.mem_cons]
    tauto

theorem mem_map_fst_cleanDetails {α : Type} (det : List (String × Option α))
    (a : String) :
    a ∈ (cleanDetails det).map Prod.fst ↔ ∃ v, (a, some v) ∈ det := by
  induction det with
  | nil => simp [cleanDetails]
  | cons p rest ih =>
    rcases p with ⟨k, v⟩
    cases v with
    | none =>
      simp only [cleanDetails, List.filterMap_cons] at *
      rw [ih]
      constructor
      · rintro ⟨w, hw⟩
        exact ⟨w, List.mem_cons_of_mem _ hw⟩
      · rintro ⟨w, hw⟩
        rcases List.mem_cons.mp hw with heq | hmem
        · exact absurd (congrArg Prod.snd heq) (by simp)
        · exact ⟨w, hmem⟩
    | some v =>
      simp only [cleanDetails, List.filterMap_cons] at *
      simp only [List.map_cons, List.mem_cons]
      rw [ih]
      constructor
      · rintro (rfl | ⟨w, hw⟩)
        · exact ⟨v, Or.inl rfl⟩
        · exact ⟨w, Or.inr hw⟩
      · rintro ⟨w, hw⟩
        rcases hw with heq | hmem
        · left
          exact (congrArg Prod.fst heq : a = k)
        · right
          exact ⟨w, hmem⟩

/-- C9: every status update merges the supplied details into the existing
map after dropping `None` values — the resulting key set is exactly the old
keys plus the keys supplied with non-`None` values, so no stored key is ever
deleted and across any sequence of updates the key set is non-decreasing —
and each update installs the new status and refreshes `last_processed_at`. -/
theorem update_document_status_spec :
    (∀ (α : Type) (doc : DocStatusState α) (st : String)
       (det : List (String × Option α)) (now : Nat) (k : String),
      k ∈ dictKeys doc.details →
      k ∈ dictKeys (updateDocumentStatus doc st det now).details) ∧
    (∀ (α : Type) (doc : DocStatusState α) (st : String)
       (det : List (String × Option α)) (now : Nat) (k : String),
      k ∈ dictKeys (updateDocumentStatus doc st det now).details ↔
        (k ∈ dictKeys doc.details ∨ ∃ v, (k, some v) ∈ det)) ∧
    (∀ (α : Type) (doc : DocStatusState α) (st : String)
       (det : List (String × Option α)) (now : Nat),
      (updateDocumentStatus doc st det now).status = st ∧
      (updateDocumentStatus doc st det now).lastProcessedAt = now) ∧
    (∀ (α : Type) (updates : List (String × List (String × Option α) × Nat))
       (doc : DocStatusState α) (k : String), k ∈ dictKeys doc.details →
      k ∈ dictKeys ((updates.foldl
        (fun d u => updateDocumentStatus d u.1 u.2.1 u.2.2) doc).details)) := by
  have hiff : ∀ (α : Type) (doc : DocStatusState α) (st : String)
      (det : List (String × Option α)) (now : Nat) (k : String),
      k ∈ dictKeys (updateDocumentStatus doc st det now).details ↔
        (k ∈ dictKeys doc.details ∨ ∃ v, (k, some v) ∈ det) := by
    intro α doc st det now k
    unfold updateDocumentStatus
    dsimp only
    rw [mem_dictKeys_foldl_dictSet, mem_map_fst_cleanDetails]
  refine ⟨?_, hiff, fun α doc st det now => ⟨rfl, rfl⟩, ?_⟩
  · intro α doc st det now k hk
    exact (hiff α doc st det now k).mpr (Or.inl hk)
  · intro α updates
    induction updates with
    | nil => intro doc k hk; exact hk
    | cons u rest ih =>
      intro doc k hk
      rw [List.foldl_cons]
      exact ih _ k ((hiff α doc u.1 u.2.1 u.2.2 k).mpr (Or.inl hk))

/-- Witness for C9 at a concrete update: the stored key survives, the
`None`-valued key is dropped, the non-`None` key is added, and the status
and timestamp are refreshed. -/
theorem update_document_status_spec_witness :
    ("stage" : String) ∈ dictKeys (updateDocumentStatus
      ({ status := "downloading", details := [("stage", "downloading_from_blob")],
         lastProcessedAt := 0 } : DocStatusState String)
      "downloaded" [("file_size", some "1024"), ("docling", none)] 5).details ∧
    (dictKeys (updateDocumentStatus
      ({ status := "downloading", details := [("stage", "downloading_from_blob")],
         lastProcessedAt := 0 } : DocStatusState String)
      "downloaded" [("file_size", some "1024"), ("docling", none)] 5).details =
        ["stage", "file_size"]) ∧
    (updateDocumentStatus
      ({ status := "downloading", details := [("stage", "downloading_from_blob")],
         lastProcessedAt := 0 } : DocStatusState String)
      "downloaded" [("file_size", some "1024"), ("docling", none)] 5).status =
        "downloaded" ∧
    (updateDocumentStatus
      ({ status := "downloading", details := [("stage", "downloading_from_blob")],
         lastProcessedAt := 0 } : DocStatusState String)
      "downloaded" [("file_size", some "1024"), ("docling", none)] 5).lastProcessedAt
        = 5 := by
  refine ⟨?_, by decide, ?_, ?_⟩
  · exact (update_document_status_spec.1 String _ "downloaded"
      [("file_size", some "1024"), ("docling", none)] 5 "stage") (by decide)
  · exact (update_document_status_spec.2.2.1 String
      { status := "downloading", details := [("stage", "downloading_from_blob")],
        lastProcessedAt := 0 } "downloaded"
      [("file_size", some "1024"), ("docling", none)] 5).1
  · exact (update_document_status_spec.2.2.1 String
      { status := "downloading", details := [("stage", "downloading_from_blob")],
        lastProcessedAt := 0 } "downloaded"
      [("file_size", some "1024"), ("docling", none)] 5).2
